import Mathlib

set_option maxHeartbeats 1000000

/-!
Shallow embedding of the woffu synchronization layer (src/api of the
repository): the data model of api/models.py, the pull / sign operations of
api/utils.py, the token-refresh decorator of api/decorators.py and the
trigger views of api/views.py.  Network traffic is modelled by passing the
response a call would receive as an explicit argument; database tables are
lists of rows; a Python exception is an explicit error value.
-/

namespace Woffu

/-- Dates are modelled as proleptic Gregorian ordinals, as produced by the
Python method date.toordinal: ordinal 1 is Monday, January 1 of year 1.
Comparison of ordinals coincides with comparison of dates. -/
abbrev Date := Nat

/-- Python date.weekday: Monday is 0 and Sunday is 6; ordinal 1 is a Monday. -/
def pyWeekday (d : Date) : Nat := (d - 1) % 7

/-- Row of api.models.Company.  The DateTimeField token_expiration and the
clock (django.utils.timezone.now / datetime.now) are modelled as Nat
timestamps; token is Option String since the field is blank=True, null=True. -/
structure Company where
  name : String
  company_id : Nat
  woffu_key : String
  token : Option String
  token_expiration : Option Nat
  updated_at : Option Date
deriving DecidableEq

/-- Row of api.models.WoffuUser.  The company foreign key is kept as the
company id; woffu_id is unique so rows are identified by it. -/
structure WoffuUser where
  woffu_id : Nat
  email : String
  company_id : Nat
  calendar_id : Nat
  active : Bool
  updated_at : Option Date
deriving DecidableEq

/-- Row of api.models.CalendarEvent. -/
structure CalendarEvent where
  name : String
  calendar_id : Nat
  date : Date
deriving DecidableEq

/-- Row of api.models.UserRequest; id is the external request id used as
primary key, woffu_user the owning user's woffu_id. -/
structure UserRequest where
  id : Nat
  woffu_user : Nat
  init_date : Date
  end_date : Date
deriving DecidableEq

/-- Company.is_valid_token (api/models.py lines 29-35):
`self.token and self.token_expiration and self.token_expiration > timezone.now()`.
Python truthiness: the token must be non-None and non-empty, the expiration
non-None, and strictly in the future. -/
def is_valid_token (c : Company) (now : Nat) : Bool :=
  (match c.token with
   | none => false
   | some t => decide (t ≠ "")) &&
  (match c.token_expiration with
   | none => false
   | some e => decide (now < e))

/-- Body of a response to POST /token, with explicit presence flags for the
two JSON keys the code reads. -/
structure TokenResponse where
  status : Nat
  has_access_token : Bool
  access_token : String
  has_expires_in : Bool
  expires_in : Nat
deriving DecidableEq

/-- Outcome of Company.get_company_token.  cached means the valid cached
token was returned without any network call; every other constructor is
reached only after the POST to the token endpoint. -/
inductive TokenResult where
  | cached (t : String)
  | fetchedNone
  | raisedKeyError
  | raisedAttributeError
deriving DecidableEq

/-- Number of network calls a get_company_token outcome performed. -/
def networkCalls : TokenResult → Nat
  | TokenResult.cached _ => 0
  | _ => 1

/-- Company.get_company_token (api/models.py lines 37-73).  If the cached
token is valid it is returned with no network call.  Otherwise the
client-credentials grant is POSTed.  On a 200 response the code first checks
`if "access_token" not in header_data and "expires_in" not in header_data`
(note: and, not or) and returns None when BOTH keys are missing; when only
access_token is missing, line 67 `header_data["access_token"]` raises
KeyError; when access_token is present, line 68 evaluates
`datetime.datetime.now()` — but models.py imports `from datetime import
datetime`, so `datetime.datetime` raises AttributeError before any token is
stored.  On a non-200 response the error is logged and None is returned.
The returned Company is the (unchanged) row state after the call. -/
def get_company_token (c : Company) (now : Nat) (resp : TokenResponse) :
    TokenResult × Company :=
  if is_valid_token c now then (TokenResult.cached (c.token.getD ""), c)
  else if resp.status = 200 then
    if resp.has_access_token = false ∧ resp.has_expires_in = false then
      (TokenResult.fetchedNone, c)
    else if resp.has_access_token = false then (TokenResult.raisedKeyError, c)
    else (TokenResult.raisedAttributeError, c)
  else (TokenResult.fetchedNone, c)

/-- Result of the sign operation (api/utils.py lines 256-291): noop models
the early `return None` paths, which perform no POST; posted ok models the
single POST to /api/v1/signs returning `data.ok`. -/
inductive SignResult where
  | noop
  | posted (ok : Bool)
deriving DecidableEq

/-- Number of POST requests a sign outcome performed. -/
def signPosts : SignResult → Nat
  | SignResult.noop => 0
  | SignResult.posted _ => 1

/-- sign (api/utils.py lines 256-291).  Returns None (no POST) when the
date's weekday is 5 or 6, when a CalendarEvent row matches
(calendar_id=woffu_user.calendar_id, date=date), or when a UserRequest row
matches the queryset filter
`woffu_user=woffu_user, init_date__gte=date, end_date__lte=date`,
i.e. init_date ≥ date AND end_date ≤ date.  Otherwise it POSTs once and
returns data.ok.  sign_in only enters the POST payload. -/
def sign (events : List CalendarEvent) (reqs : List UserRequest)
    (u : WoffuUser) (date : Date) (sign_in : Bool) (postOk : Bool) : SignResult :=
  if pyWeekday date = 5 ∨ pyWeekday date = 6 then SignResult.noop
  else if ∃ e ∈ events, e.calendar_id = u.calendar_id ∧ e.date = date then
    SignResult.noop
  else if ∃ q ∈ reqs, q.woffu_user = u.woffu_id ∧ date ≤ q.init_date ∧ q.end_date ≤ date then
    SignResult.noop
  else
    let _ := sign_in
    SignResult.posted postOk

/-- One event of a 200 response to GET /api/v1/calendars/id/events, with the
Date field already parsed to an ordinal as by strptime(...).date(). -/
structure EventRecord where
  name : String
  date : Date
deriving DecidableEq

/-- Loop body of the upsert pass of get_calendar_events (api/utils.py lines
82-88).  events is the snapshot of stored dates for this calendar taken at
line 81, before the loop.  When the event's date is not in that snapshot the
code calls get_or_create(name=..., calendar_id=calendar, date=event_date),
which creates a row unless one matching all three fields already exists. -/
def upsertStep (events : List Date) (calendar : Nat)
    (acc : List CalendarEvent) (ev : EventRecord) : List CalendarEvent :=
  if ev.date ∈ events then acc
  else if ∃ e ∈ acc, e.name = ev.name ∧ e.calendar_id = calendar ∧ e.date = ev.date then acc
  else acc ++ [CalendarEvent.mk ev.name calendar ev.date]

/-- Snapshot of the stored dates of one calendar, taken by line 81 of
api/utils.py: `CalendarEvent.objects.filter(calendar_id=calendar).values_list("date", flat=True)`. -/
def storedDates (stored : List CalendarEvent) (calendar : Nat) : List Date :=
  (stored.filter (fun e => decide (e.calendar_id = calendar))).map CalendarEvent.date

/-- Handling of one calendar's 200 response inside get_calendar_events
(api/utils.py lines 79-92): upsert every response event, then delete every
stored row of this calendar whose date is not among the response dates
(`filter(calendar_id=calendar).exclude(date__in=dates).delete()`). -/
def syncCalendarEvents (stored : List CalendarEvent) (calendar : Nat)
    (resp : List EventRecord) : List CalendarEvent :=
  (resp.foldl (upsertStep (storedDates stored calendar) calendar) stored).filter
    (fun e => decide (¬(e.calendar_id = calendar ∧ e.date ∉ resp.map EventRecord.date)))

/-- One element of the Views array of a requests response.  deleted and
updatedOn carry the Python truthiness of `user_request.get("Deleted", None)`
and `user_request.get("UpdatedOn", None)`; startDate and endDate are the
parsed StartDate / EndDate fields and userId the UserId field. -/
structure RequestRecord where
  requestId : Nat
  userId : Nat
  startDate : Date
  endDate : Date
  deleted : Bool
  updatedOn : Bool
deriving DecidableEq

/-- Three-way classification step of get_user_request (api/utils.py lines
172-190), processing one record against the UserRequest table.
Deleted truthy: `UserRequest.objects.get(id=...).delete()` — objects.get
raises UserRequest.DoesNotExist when no row has that id (the primary key is
unique, so at most one row matches); otherwise the row is deleted.
Not deleted and updatedOn truthy: `filter(id=...).update(init_date, end_date)`
updates the matching row in place and never raises.
Otherwise: create the row unless `filter(id=...).exists()`. -/
def processUserRecord (u : WoffuUser) (table : List UserRequest)
    (r : RequestRecord) : Except String (List UserRequest) :=
  if r.deleted then
    if ∃ q ∈ table, q.id = r.requestId then
      Except.ok (table.filter (fun q => decide (q.id ≠ r.requestId)))
    else Except.error "UserRequest.DoesNotExist"
  else if r.updatedOn then
    Except.ok (table.map (fun q =>
      if q.id = r.requestId then
        UserRequest.mk q.id q.woffu_user r.startDate r.endDate
      else q))
  else
    if ∃ q ∈ table, q.id = r.requestId then Except.ok table
    else Except.ok (table ++ [UserRequest.mk r.requestId u.woffu_id r.startDate r.endDate])

/-- Folding processUserRecord over the Views list; a raised exception stops
the loop and carries the table state reached so far. -/
def processUserRecords (u : WoffuUser) :
    List UserRequest → List RequestRecord →
    Except (String × List UserRequest) (List UserRequest)
  | table, [] => Except.ok table
  | table, r :: rs =>
    match processUserRecord u table r with
    | Except.ok t => processUserRecords u t rs
    | Except.error m => Except.error (m, table)

/-- Response to GET /api/v1/users/id/requests (and /api/v1/requests). -/
structure UserReqResponse where
  status : Nat
  views : List RequestRecord
deriving DecidableEq

/-- Assignment `woffu_user.updated_at = ...` of api/utils.py line 191. -/
def setUpdatedAt (u : WoffuUser) (d : Option Date) : WoffuUser :=
  WoffuUser.mk u.woffu_id u.email u.company_id u.calendar_id u.active d

/-- Outcome of get_user_request: skipped is the early return of line 156,
completed a normal return, raised a propagating Python exception; each
carries the user object and table state at that point. -/
inductive PullOutcome where
  | skipped (user : WoffuUser) (table : List UserRequest)
  | completed (user : WoffuUser) (table : List UserRequest)
  | raised (msg : String) (user : WoffuUser) (table : List UserRequest)
deriving DecidableEq

/-- Fetch-and-process part of get_user_request (api/utils.py lines 167-195):
on a 200 response every record is classified and applied, then
`woffu_user.updated_at = datetime.datetime.now().date()` sets the watermark
to the current date; on any other status the error is logged and the
function returns with everything unchanged. -/
def get_user_request_fetch (u : WoffuUser) (table : List UserRequest)
    (today : Date) (resp : UserReqResponse) : PullOutcome :=
  if resp.status = 200 then
    match processUserRecords u table resp.views with
    | Except.ok t => PullOutcome.completed (setUpdatedAt u (some today)) t
    | Except.error (m, t) => PullOutcome.raised m u t
  else PullOutcome.completed u table

/-- Early-return guard of api/utils.py line 155:
`if init_date and to_date and to_date < init_date: return`. -/
def skipPull (watermark to_date : Option Date) : Bool :=
  match watermark, to_date with
  | some i, some t => decide (t < i)
  | _, _ => false

/-- get_user_request (api/utils.py lines 142-195).  init_date is the user's
updated_at watermark; when both it and to_date are present and
to_date < init_date the function returns before any network call. -/
def get_user_request (u : WoffuUser) (table : List UserRequest)
    (to_date : Option Date) (today : Date) (resp : UserReqResponse) : PullOutcome :=
  if skipPull u.updated_at to_date then PullOutcome.skipped u table
  else get_user_request_fetch u table today resp

/-- Query dict built by get_user_request at api/utils.py lines 162-166:
fromDate is set to the watermark when present, toDate to the to_date
argument when given.  Parameter values are kept as dates. -/
def user_request_built_data (u : WoffuUser) (to_date : Option Date) :
    List (String × Date) :=
  (match u.updated_at with
   | some i => [("fromDate", i)]
   | none => []) ++
  (match to_date with
   | some t => [("toDate", t)]
   | none => [])

/-- Parameters actually carried by the outgoing GET of get_user_request.
Line 167 is `data = requests.get(url=url, headers=headers, timeout=10)`:
the dict built at lines 162-166 is rebound to the response without ever
being passed, so when the request is made at all it carries no parameters.
none models the early return of line 156, where no request is made. -/
def user_request_sent_data (u : WoffuUser) (to_date : Option Date) :
    Option (List (String × Date)) :=
  match u.updated_at, to_date with
  | some i, some t => if t < i then none else some []
  | _, _ => some []

/-- One step of the bulk pull get_users_requests (api/utils.py lines
121-131).  `WoffuUser.objects.get(woffu_id=request["UserId"])` raises
WoffuUser.DoesNotExist when the user is unknown (woffu_id is unique).  A row
is created unless `filter(id=..., woffu_user=...).exists()`; objects.create
inserts with the external id as explicit primary key, so when a row with
that id but a different owner exists the insert raises IntegrityError. -/
def processBulkRecord (users : List WoffuUser) (table : List UserRequest)
    (r : RequestRecord) : Except String (List UserRequest) :=
  match users.find? (fun w => w.woffu_id == r.userId) with
  | none => Except.error "WoffuUser.DoesNotExist"
  | some w =>
    if ∃ q ∈ table, q.id = r.requestId ∧ q.woffu_user = w.woffu_id then
      Except.ok table
    else if ∃ q ∈ table, q.id = r.requestId then Except.error "IntegrityError"
    else Except.ok (table ++ [UserRequest.mk r.requestId w.woffu_id r.startDate r.endDate])

/-- Folding processBulkRecord over the Views list; a raised exception stops
the loop, leaving the table as committed so far (no surrounding
transaction). -/
def processBulkRecords (users : List WoffuUser) :
    List UserRequest → List RequestRecord → List UserRequest × Option String
  | table, [] => (table, none)
  | table, r :: rs =>
    match processBulkRecord users table r with
    | Except.ok t => processBulkRecords users t rs
    | Except.error m => (table, some m)

/-- get_users_requests (api/utils.py lines 103-139): on a 200 response every
record of Views is processed and True is returned; on any other status the
error is logged and False is returned.  Result: final table, the exception
raised if any, and the returned boolean (meaningless when an exception
propagates). -/
def get_users_requests (users : List WoffuUser) (table : List UserRequest)
    (resp : UserReqResponse) : List UserRequest × Option String × Bool :=
  if resp.status = 200 then
    ((processBulkRecords users table resp.views).1,
     (processBulkRecords users table resp.views).2,
     (processBulkRecords users table resp.views).2.isNone)
  else (table, none, false)

/-- Result of an inbound trigger view. -/
inductive ViewResult where
  | response (status : Nat)
  | raised (msg : String)
deriving DecidableEq

/-- sync_user_request (api/views.py lines 8-11) together with the
check_valid_token decorator on get_user_request (api/decorators.py).  found
is the get_object_or_404 lookup result and c the user's company row.  The
decorator evaluates `company.is_valid_token()`; when the token is invalid it
calls `company.get_company_token(company=company)`, but get_company_token
takes only self, so the call raises TypeError before any fetch.  When the
wrapped function itself raises, the exception propagates (Django answers
500); only when it returns does the view answer 204. -/
def sync_user_request_view (found : Option WoffuUser) (c : Company) (now : Nat)
    (table : List UserRequest) (today : Date) (resp : UserReqResponse) : ViewResult :=
  match found with
  | none => ViewResult.response 404
  | some u =>
    if is_valid_token c now then
      match get_user_request u table none today resp with
      | PullOutcome.raised m _ _ => ViewResult.raised m
      | _ => ViewResult.response 204
    else ViewResult.raised "TypeError: get_company_token got an unexpected keyword argument company"

/-- Sample user owning calendar 1, with no watermark. -/
def user7 : WoffuUser := WoffuUser.mk 7 "user@example.com" 1 1 true none

/-- Sample user with watermark ordinal 5. -/
def user7At5 : WoffuUser := WoffuUser.mk 7 "user@example.com" 1 1 true (some 5)

/-- Approved leave of user 7 covering ordinals 2 to 4. -/
def leaveReq : UserRequest := UserRequest.mk 1 7 2 4

/-- Deleted-record for external id 42. -/
def delRec42 : RequestRecord := RequestRecord.mk 42 7 1 2 true false

/-- Created-classified record for external id 9. -/
def createdRec9 : RequestRecord := RequestRecord.mk 9 7 3 4 false false

/-- 200 response carrying only the deleted-record for id 42. -/
def respDel42 : UserReqResponse := UserReqResponse.mk 200 [delRec42]

/-- Empty 200 response. -/
def emptyResp200 : UserReqResponse := UserReqResponse.mk 200 []

/-- Company with no cached token. -/
def expiredCompany : Company := Company.mk "Acme" 1 "secret" none none none

/-- Company holding token tok valid until timestamp 2000. -/
def validCompany : Company :=
  Company.mk "Acme" 1 "secret" (some "tok") (some 2000) none

/-- Successful token-endpoint response with both JSON keys present. -/
def okTokenResponse : TokenResponse := TokenResponse.mk 200 true "newtoken" true 3600

/-- Calendar event record dated ordinal 3. -/
def evX3 : EventRecord := EventRecord.mk "Holiday" 3

/-- Claim C1: the claim says sign returns a no-op whenever an existing
UserRequest of the user covers the date (init_date ≤ date ≤ end_date).  The
queryset filter in the code is `init_date__gte=date, end_date__lte=date`,
the reverse inequalities, contradicting the comment above it ("Don't sign on
user holidays"): ordinal 3 is a Wednesday, no calendar event exists, and the
leave 2..4 of user 7 covers it, yet sign performs the POST. -/
theorem sign_posts_inside_covering_leave :
    pyWeekday 3 ≠ 5 ∧ pyWeekday 3 ≠ 6 ∧
    leaveReq.woffu_user = user7.woffu_id ∧
    leaveReq.init_date ≤ 3 ∧ 3 ≤ leaveReq.end_date ∧
    sign [] [leaveReq] user7 3 true true = SignResult.posted true ∧
    signPosts (sign [] [leaveReq] user7 3 true true) = 1 := by
  refine ⟨by decide, by decide, rfl, by decide, by decide, rfl, rfl⟩

/-- Claim C2: the claim says replaying a deleted record for an absent
external id is a no-op that must not raise.  The code runs
`UserRequest.objects.get(id=...).delete()`, and objects.get raises
UserRequest.DoesNotExist when no row has that id: processing the deleted
record for id 42 against an empty table raises. -/
theorem deleted_record_absent_id_raises :
    delRec42.deleted = true ∧
    processUserRecord user7 [] delRec42 = Except.error "UserRequest.DoesNotExist" :=
  ⟨rfl, rfl⟩

/-- Claim C5: the claim says that with an invalid cached token a 200
token-endpoint response makes the code persist the new token and return it.
models.py imports `from datetime import datetime`, so line 68 evaluates
`datetime.datetime.now()`, which raises AttributeError before anything is
stored: token refresh crashes on every successful grant. -/
theorem token_refresh_200_raises :
    is_valid_token expiredCompany 1000 = false ∧
    okTokenResponse.status = 200 ∧
    okTokenResponse.has_access_token = true ∧ okTokenResponse.has_expires_in = true ∧
    get_company_token expiredCompany 1000 okTokenResponse =
      (TokenResult.raisedAttributeError, expiredCompany) := by
  refine ⟨rfl, rfl, rfl, rfl, rfl⟩

/-- Claim C6: the claim says the per-user GET carries fromDate equal to the
user's watermark.  Lines 162-166 build that dict, but line 167 rebinds data
to the response of `requests.get(url=url, headers=headers, timeout=10)`
without passing it: the request that is sent carries no parameters at all,
although the watermark (ordinal 5) was placed in the built dict. -/
theorem per_user_get_sends_no_params :
    user7At5.updated_at = some 5 ∧
    user_request_built_data user7At5 none = [("fromDate", 5)] ∧
    user_request_sent_data user7At5 none = some [] ∧
    user_request_sent_data user7At5 none ≠ some (user_request_built_data user7At5 none) := by
  refine ⟨rfl, rfl, rfl, by decide⟩

/-- Claim C9: the claim says the trigger endpoint answers 204 for an
existing user regardless of internal failure.  When the company token is
invalid the check_valid_token decorator calls
`company.get_company_token(company=company)`, but get_company_token takes
only self, so a TypeError is raised before any fetch and the view never
answers 204. -/
theorem sync_view_raises_on_invalid_token :
    is_valid_token expiredCompany 1000 = false ∧
    sync_user_request_view (some user7) expiredCompany 1000 [] 10 emptyResp200 =
      ViewResult.raised "TypeError: get_company_token got an unexpected keyword argument company" ∧
    sync_user_request_view (some user7) expiredCompany 1000 [] 10 emptyResp200 ≠
      ViewResult.response 204 := by
  refine ⟨rfl, rfl, by decide⟩

/-- Claim C4: a company whose cached token is non-empty and whose expiry is
strictly in the future gets the cached token back with no network call, so
a second acquisition inside the validity window performs no network call
either; the company row is unchanged by both calls. -/
theorem valid_token_cached_no_network (c : Company) (now1 now2 : Nat)
    (resp1 resp2 : TokenResponse) (t : String) (e : Nat)
    (htok : c.token = some t) (hne : t ≠ "") (hexp : c.token_expiration = some e)
    (h1 : now1 < e) (h2 : now2 < e) :
    get_company_token c now1 resp1 = (TokenResult.cached t, c) ∧
    get_company_token c now2 resp2 = (TokenResult.cached t, c) ∧
    networkCalls (get_company_token c now1 resp1).1 = 0 ∧
    networkCalls (get_company_token c now2 resp2).1 = 0 := by
  have hv1 : is_valid_token c now1 = true := by
    simp [is_valid_token, htok, hexp, hne, h1]
  have hv2 : is_valid_token c now2 = true := by
    simp [is_valid_token, htok, hexp, hne, h2]
  refine ⟨?_, ?_, ?_, ?_⟩ <;>
    simp [get_company_token, hv1, hv2, networkCalls, htok]

/-- Witness for valid_token_cached_no_network at a concrete company. -/
theorem valid_token_cached_no_network_witness :
    get_company_token validCompany 1000 okTokenResponse =
      (TokenResult.cached "tok", validCompany) ∧
    get_company_token validCompany 1500 okTokenResponse =
      (TokenResult.cached "tok", validCompany) ∧
    networkCalls (get_company_token validCompany 1000 okTokenResponse).1 = 0 ∧
    networkCalls (get_company_token validCompany 1500 okTokenResponse).1 = 0 :=
  valid_token_cached_no_network validCompany 1000 1500 okTokenResponse okTokenResponse
    "tok" 2000 rfl (by decide) rfl (by decide) (by decide)

/-- Unfolding equation of processBulkRecord when the user lookup fails. -/
theorem processBulkRecord_none (users : List WoffuUser) (table : List UserRequest)
    (r : RequestRecord)
    (hf : users.find? (fun w => w.woffu_id == r.userId) = none) :
    processBulkRecord users table r = Except.error "WoffuUser.DoesNotExist" := by
  unfold processBulkRecord
  rw [hf]

/-- Unfolding equation of processBulkRecord when the user lookup succeeds. -/
theorem processBulkRecord_some (users : List WoffuUser) (table : List UserRequest)
    (r : RequestRecord) (w : WoffuUser)
    (hf : users.find? (fun w => w.woffu_id == r.userId) = some w) :
    processBulkRecord users table r =
      if ∃ q ∈ table, q.id = r.requestId ∧ q.woffu_user = w.woffu_id then
        Except.ok table
      else if ∃ q ∈ table, q.id = r.requestId then Except.error "IntegrityError"
      else Except.ok (table ++ [UserRequest.mk r.requestId w.woffu_id r.startDate r.endDate]) := by
  unfold processBulkRecord
  rw [hf]

/-- Unfolding equation of processUserRecord for a created-classified
record. -/
theorem processUserRecord_created (u : WoffuUser) (table : List UserRequest)
    (r : RequestRecord) (hd : r.deleted = false) (hu : r.updatedOn = false) :
    processUserRecord u table r =
      if ∃ q ∈ table, q.id = r.requestId then Except.ok table
      else Except.ok (table ++ [UserRequest.mk r.requestId u.woffu_id r.startDate r.endDate]) := by
  unfold processUserRecord
  rw [hd, hu]
  simp

/-- Claim C8: applying a created-classified record (deleted and updatedOn
both falsy) a second time creates no new row: once the first application
succeeded, replaying it on the resulting table returns the table unchanged,
both in the per-user path (dedupe by external id) and in the bulk path
(dedupe by external id and user). -/
theorem created_record_idempotent (u : WoffuUser) (users : List WoffuUser)
    (table : List UserRequest) (r : RequestRecord)
    (hd : r.deleted = false) (hu : r.updatedOn = false) :
    (∀ t1, processUserRecord u table r = Except.ok t1 →
      processUserRecord u t1 r = Except.ok t1) ∧
    (∀ b1, processBulkRecord users table r = Except.ok b1 →
      processBulkRecord users b1 r = Except.ok b1) := by
  constructor
  · intro t1 h1
    rw [processUserRecord_created u table r hd hu] at h1
    by_cases hex : ∃ q ∈ table, q.id = r.requestId
    · rw [if_pos hex] at h1
      have ht : t1 = table := by simpa using h1.symm
      rw [ht, processUserRecord_created u table r hd hu, if_pos hex]
    · rw [if_neg hex] at h1
      have ht : t1 = table ++ [UserRequest.mk r.requestId u.woffu_id r.startDate r.endDate] := by
        simpa using h1.symm
      rw [ht, processUserRecord_created u _ r hd hu, if_pos
        (⟨UserRequest.mk r.requestId u.woffu_id r.startDate r.endDate,
          List.mem_append_right _ (List.mem_singleton_self _), rfl⟩ :
          ∃ q ∈ table ++ [UserRequest.mk r.requestId u.woffu_id r.startDate r.endDate],
            q.id = r.requestId)]
  · intro b1 h1
    cases hf : users.find? (fun w => w.woffu_id == r.userId) with
    | none => rw [processBulkRecord_none users table r hf] at h1; simp at h1
    | some w =>
      rw [processBulkRecord_some users table r w hf] at h1
      rw [processBulkRecord_some users b1 r w hf]
      by_cases hex : ∃ q ∈ table, q.id = r.requestId ∧ q.woffu_user = w.woffu_id
      · rw [if_pos hex] at h1
        have hb : b1 = table := by
          simpa using h1.symm
        subst hb
        rw [if_pos hex]
      · rw [if_neg hex] at h1
        by_cases hex2 : ∃ q ∈ table, q.id = r.requestId
        · rw [if_pos hex2] at h1; simp at h1
        · rw [if_neg hex2] at h1
          have hb : b1 = table ++ [UserRequest.mk r.requestId w.woffu_id r.startDate r.endDate] := by
            simpa using h1.symm
          subst hb
          have hex3 : ∃ q ∈ table ++ [UserRequest.mk r.requestId w.woffu_id r.startDate r.endDate],
              q.id = r.requestId ∧ q.woffu_user = w.woffu_id :=
            ⟨UserRequest.mk r.requestId w.woffu_id r.startDate r.endDate,
              List.mem_append_right _ (List.mem_singleton_self _), rfl, rfl⟩
          rw [if_pos hex3]

/-- Witness for created_record_idempotent: replaying createdRec9 on the
table its first application produced leaves that table unchanged. -/
theorem created_record_idempotent_witness :
    processUserRecord user7 [UserRequest.mk 9 7 3 4] createdRec9 =
      Except.ok [UserRequest.mk 9 7 3 4] :=
  (created_record_idempotent user7 [user7] [] createdRec9 rfl rfl).1
    [UserRequest.mk 9 7 3 4] rfl

/-- Watermark behaviour of the fetch-and-process part of get_user_request:
on a clean 200 run the user leaves with updated_at set to today and nothing
else changed; on a non-200 status or a raised exception the user object is
untouched; the fetch part never produces the skipped outcome. -/
theorem fetch_watermark_aux (u : WoffuUser) (table : List UserRequest)
    (today : Date) (resp : UserReqResponse) :
    (∀ u2 t2, get_user_request_fetch u table today resp = PullOutcome.completed u2 t2 →
      (resp.status = 200 → u2 = setUpdatedAt u (some today)) ∧
      (resp.status ≠ 200 → u2 = u)) ∧
    (∀ m u2 t2, get_user_request_fetch u table today resp = PullOutcome.raised m u2 t2 →
      u2 = u) ∧
    (∀ u2 t2, get_user_request_fetch u table today resp = PullOutcome.skipped u2 t2 →
      u2 = u) := by
  unfold get_user_request_fetch
  by_cases hs : resp.status = 200
  · rw [if_pos hs]
    cases hp : processUserRecords u table resp.views with
    | ok t =>
      refine ⟨?_, ?_, ?_⟩
      · intro u2 t2 h
        simp only [PullOutcome.completed.injEq] at h
        exact ⟨fun _ => h.1.symm, fun hns => absurd hs hns⟩
      · intro m u2 t2 h
        simp at h
      · intro u2 t2 h
        simp at h
    | error e =>
      obtain ⟨m0, t0⟩ := e
      refine ⟨?_, ?_, ?_⟩
      · intro u2 t2 h
        simp at h
      · intro m u2 t2 h
        simp only [PullOutcome.raised.injEq] at h
        exact h.2.1.symm
      · intro u2 t2 h
        simp at h
  · rw [if_neg hs]
    refine ⟨?_, ?_, ?_⟩
    · intro u2 t2 h
      simp only [PullOutcome.completed.injEq] at h
      exact ⟨fun h200 => absurd h200 hs, fun _ => h.1.symm⟩
    · intro m u2 t2 h
      simp at h
    · intro u2 t2 h
      simp at h

/-- Claim C7 (amended): the watermark is set to the current date exactly on
a 200 fetch whose record processing completes without raising; on a non-200
fetch, on a raised exception, and on the early-return skip the user object
(hence its watermark) is left unchanged. -/
theorem watermark_set_iff_clean_200 (u : WoffuUser) (table : List UserRequest)
    (to_date : Option Date) (today : Date) (resp : UserReqResponse) :
    (∀ u2 t2, get_user_request u table to_date today resp = PullOutcome.completed u2 t2 →
      (resp.status = 200 → u2.updated_at = some today ∧ u2 = setUpdatedAt u (some today)) ∧
      (resp.status ≠ 200 → u2 = u)) ∧
    (∀ m u2 t2, get_user_request u table to_date today resp = PullOutcome.raised m u2 t2 →
      u2 = u) ∧
    (∀ u2 t2, get_user_request u table to_date today resp = PullOutcome.skipped u2 t2 →
      u2 = u) := by
  have haux := fetch_watermark_aux u table today resp
  have hfetch :
      (∀ u2 t2, get_user_request_fetch u table today resp = PullOutcome.completed u2 t2 →
        (resp.status = 200 → u2.updated_at = some today ∧ u2 = setUpdatedAt u (some today)) ∧
        (resp.status ≠ 200 → u2 = u)) ∧
      (∀ m u2 t2, get_user_request_fetch u table today resp = PullOutcome.raised m u2 t2 →
        u2 = u) ∧
      (∀ u2 t2, get_user_request_fetch u table today resp = PullOutcome.skipped u2 t2 →
        u2 = u) := by
    refine ⟨?_, haux.2.1, haux.2.2⟩
    intro u2 t2 h
    refine ⟨fun h200 => ?_, (haux.1 u2 t2 h).2⟩
    have he := (haux.1 u2 t2 h).1 h200
    exact ⟨he ▸ rfl, he⟩
  unfold get_user_request
  by_cases hskip : skipPull u.updated_at to_date = true
  · rw [if_pos hskip]
    refine ⟨?_, ?_, ?_⟩
    · intro u2 t2 h
      simp at h
    · intro m u2 t2 h
      simp at h
    · intro u2 t2 h
      simp only [PullOutcome.skipped.injEq] at h
      exact h.1.symm
  · rw [if_neg hskip]
    exact hfetch

/-- Witness for watermark_set_iff_clean_200: an empty 200 response for the
user with watermark 5 completes and leaves the watermark at today = 10. -/
theorem watermark_set_iff_clean_200_witness :
    (setUpdatedAt user7At5 (some 10)).updated_at = some 10 :=
  (((watermark_set_iff_clean_200 user7At5 [] none 10 emptyResp200).1
      (setUpdatedAt user7At5 (some 10)) []) rfl).1 rfl |>.1

/-- Claim C7 counterexample: the claim as stated says the watermark is set
to the current date whenever the fetch returns 200.  respDel42 is a 200
response, but its deleted record for the absent id 42 makes line 178 raise
before line 191 is reached, so the watermark stays at 5 instead of becoming
today = 10. -/
theorem watermark_not_set_on_raising_200 :
    respDel42.status = 200 ∧
    get_user_request user7At5 [] none 10 respDel42 =
      PullOutcome.raised "UserRequest.DoesNotExist" user7At5 [] ∧
    user7At5.updated_at = some 5 ∧
    user7At5.updated_at ≠ some 10 := by
  refine ⟨rfl, rfl, rfl, by decide⟩

/-- The upsert loop body only ever appends rows. -/
theorem upsertStep_mono (events : List Date) (calendar : Nat)
    (acc : List CalendarEvent) (ev : EventRecord) :
    ∀ x ∈ acc, x ∈ upsertStep events calendar acc ev := by
  intro x hx
  unfold upsertStep
  split
  · exact hx
  · split
    · exact hx
    · exact List.mem_append_left _ hx

/-- Folding the upsert loop preserves every row already present. -/
theorem upsert_foldl_mono (events : List Date) (calendar : Nat)
    (resp : List EventRecord) :
    ∀ acc x, x ∈ acc → x ∈ resp.foldl (upsertStep events calendar) acc := by
  induction resp with
  | nil => intro acc x hx; exact hx
  | cons ev rs ih =>
    intro acc x hx
    simp only [List.foldl_cons]
    exact ih _ x (upsertStep_mono events calendar acc ev x hx)

/-- After the upsert loop, every response event whose date was not in the
snapshot is represented by a row of this calendar with that date. -/
theorem upsert_foldl_exists (events : List Date) (calendar : Nat)
    (resp : List EventRecord) :
    ∀ acc, ∀ ev ∈ resp, ev.date ∉ events →
      ∃ e ∈ resp.foldl (upsertStep events calendar) acc,
        e.calendar_id = calendar ∧ e.date = ev.date := by
  induction resp with
  | nil => intro acc ev h; cases h
  | cons hd rs ih =>
    intro acc ev hmem hnotin
    simp only [List.foldl_cons]
    cases List.mem_cons.mp hmem with
    | inl heq =>
      subst heq
      by_cases h2 : ∃ e ∈ acc, e.name = ev.name ∧ e.calendar_id = calendar ∧ e.date = ev.date
      · obtain ⟨e, he, _, hc, hdt⟩ := h2
        exact ⟨e, upsert_foldl_mono events calendar rs _ e
          (upsertStep_mono events calendar acc ev e he), hc, hdt⟩
      · have hstep : CalendarEvent.mk ev.name calendar ev.date ∈
            upsertStep events calendar acc ev := by
          unfold upsertStep
          rw [if_neg hnotin, if_neg h2]
          exact List.mem_append_right _ (List.mem_singleton_self _)
        exact ⟨CalendarEvent.mk ev.name calendar ev.date,
          upsert_foldl_mono events calendar rs _ _ hstep, rfl, rfl⟩
    | inr htail =>
      exact ih _ ev htail hnotin

/-- Claim C3: after a 200 calendar pull, a date is stored for the calendar
exactly when it occurs in the response — full replace-by-set semantics. -/
theorem calendar_sync_replace_by_set (stored : List CalendarEvent) (calendar : Nat)
    (resp : List EventRecord) (d : Date) :
    (∃ e ∈ syncCalendarEvents stored calendar resp,
       e.calendar_id = calendar ∧ e.date = d) ↔ d ∈ resp.map EventRecord.date := by
  unfold syncCalendarEvents
  constructor
  · rintro ⟨e, hmem, hcal, hdate⟩
    rw [List.mem_filter] at hmem
    have hpred := hmem.2
    rw [decide_eq_true_eq] at hpred
    by_contra hnd
    exact hpred ⟨hcal, hdate ▸ hnd⟩
  · intro hd
    rw [List.mem_map] at hd
    obtain ⟨ev, hev, hevd⟩ := hd
    have hdmem : d ∈ resp.map EventRecord.date := List.mem_map.mpr ⟨ev, hev, hevd⟩
    by_cases hin : ev.date ∈ storedDates stored calendar
    · unfold storedDates at hin
      rw [List.mem_map] at hin
      obtain ⟨e, he, hed⟩ := hin
      rw [List.mem_filter, decide_eq_true_eq] at he
      refine ⟨e, ?_, he.2, hed.trans hevd⟩
      rw [List.mem_filter]
      refine ⟨upsert_foldl_mono _ _ _ _ _ he.1, ?_⟩
      rw [decide_eq_true_eq]
      rintro ⟨-, hno⟩
      exact hno ((hed.trans hevd) ▸ hdmem)
    · obtain ⟨e, hmem, hcal, hdate⟩ :=
        upsert_foldl_exists (storedDates stored calendar) calendar resp stored ev hev hin
      refine ⟨e, ?_, hcal, hdate.trans hevd⟩
      rw [List.mem_filter]
      refine ⟨hmem, ?_⟩
      rw [decide_eq_true_eq]
      rintro ⟨-, hno⟩
      exact hno ((hdate.trans hevd) ▸ hdmem)

/-- Witness for calendar_sync_replace_by_set: syncing calendar 1 from an
empty store with a response holding one event dated 3 stores date 3. -/
theorem calendar_sync_replace_by_set_witness :
    ∃ e ∈ syncCalendarEvents [] 1 [evX3], e.calendar_id = 1 ∧ e.date = 3 :=
  (calendar_sync_replace_by_set [] 1 [evX3] 3).mpr (by decide)

/-- A successful bulk step either leaves the table alone or appends one row
whose external id is fresh. -/
theorem processBulkRecord_ok_cases (users : List WoffuUser) (table : List UserRequest)
    (r : RequestRecord) (t : List UserRequest)
    (h : processBulkRecord users table r = Except.ok t) :
    t = table ∨ ∃ x, t = table ++ [x] ∧ ∀ p ∈ table, p.id ≠ x.id := by
  cases hf : users.find? (fun w => w.woffu_id == r.userId) with
  | none =>
    rw [processBulkRecord_none users table r hf] at h
    simp at h
  | some w =>
    rw [processBulkRecord_some users table r w hf] at h
    by_cases h1 : ∃ q ∈ table, q.id = r.requestId ∧ q.woffu_user = w.woffu_id
    · rw [if_pos h1] at h
      exact Or.inl (by simpa using h.symm)
    · rw [if_neg h1] at h
      by_cases h2 : ∃ q ∈ table, q.id = r.requestId
      · rw [if_pos h2] at h
        simp at h
      · rw [if_neg h2] at h
        have ht : t = table ++ [UserRequest.mk r.requestId w.woffu_id r.startDate r.endDate] := by
          simpa using h.symm
        refine Or.inr ⟨UserRequest.mk r.requestId w.woffu_id r.startDate r.endDate, ht, ?_⟩
        intro p hp hpe
        exact h2 ⟨p, hp, hpe⟩

/-- Unfolding equation of processBulkRecords on a successful step. -/
theorem processBulkRecords_cons_ok (users : List WoffuUser) (table : List UserRequest)
    (r : RequestRecord) (rs : List RequestRecord) (t : List UserRequest)
    (h : processBulkRecord users table r = Except.ok t) :
    processBulkRecords users table (r :: rs) = processBulkRecords users t rs := by
  conv_lhs => unfold processBulkRecords
  rw [h]

/-- Unfolding equation of processBulkRecords on a raising step. -/
theorem processBulkRecords_cons_err (users : List WoffuUser) (table : List UserRequest)
    (r : RequestRecord) (rs : List RequestRecord) (m : String)
    (h : processBulkRecord users table r = Except.error m) :
    processBulkRecords users table (r :: rs) = (table, some m) := by
  unfold processBulkRecords
  rw [h]

/-- The bulk processing loop only appends rows with fresh external ids,
whether it runs to completion or stops at a raised exception. -/
theorem processBulkRecords_frame (users : List WoffuUser) (rs : List RequestRecord) :
    ∀ table, ∃ new, (processBulkRecords users table rs).1 = table ++ new ∧
      ∀ q ∈ new, ∀ p ∈ table, p.id ≠ q.id := by
  induction rs with
  | nil =>
    intro table
    refine ⟨[], ?_, ?_⟩
    · simp [processBulkRecords]
    · simp
  | cons r rs ih =>
    intro table
    cases hp : processBulkRecord users table r with
    | error m =>
      rw [processBulkRecords_cons_err users table r rs m hp]
      refine ⟨[], by simp, by simp⟩
    | ok t =>
      rw [processBulkRecords_cons_ok users table r rs t hp]
      rcases processBulkRecord_ok_cases users table r t hp with heq | ⟨x, hx, hxfresh⟩
      · subst heq
        exact ih _
      · subst hx
        obtain ⟨new, hnew, hfresh⟩ := ih (table ++ [x])
        refine ⟨x :: new, ?_, ?_⟩
        · rw [hnew]
          simp
        · intro q hq p hp2
          cases List.mem_cons.mp hq with
          | inl h => exact h ▸ hxfresh p hp2
          | inr h => exact hfresh q h p (List.mem_append_left _ hp2)

/-- Claim C10: the bulk pull never modifies or deletes an existing
UserRequest row — the resulting table is the old table with rows appended —
and every appended row has an external id absent from the old table (hence
an absent (id, user) pair). -/
theorem bulk_pull_insert_only (users : List WoffuUser) (table : List UserRequest)
    (resp : UserReqResponse) :
    ∃ new, (get_users_requests users table resp).1 = table ++ new ∧
      ∀ q ∈ new, ∀ p ∈ table, p.id ≠ q.id := by
  unfold get_users_requests
  by_cases hs : resp.status = 200
  · rw [if_pos hs]
    exact processBulkRecords_frame users resp.views table
  · rw [if_neg hs]
    refine ⟨[], by simp, by simp⟩

/-- Witness for bulk_pull_insert_only at a concrete pull. -/
theorem bulk_pull_insert_only_witness :
    ∃ new, (get_users_requests [user7] [] respDel42).1 = [] ++ new ∧
      ∀ q ∈ new, ∀ p ∈ ([] : List UserRequest), p.id ≠ q.id :=
  bulk_pull_insert_only [user7] [] respDel42

end Woffu
